import Mathlib

/-!
# RACK loss detection (net/ipv4/tcp_recovery.c) — shallow embedding

This file embeds the RACK ("Recent ACK") loss-detection core of
`net/ipv4/tcp_recovery.c` in Lean 4 and proves properties of it.

Modelling conventions:
* Timestamps (`skb_mstamp`) are naturals counting microseconds; the helper
  `skb_mstamp_after`/`skb_mstamp_us_delta` functions from the kernel headers
  (not part of the source file) are modelled from the spec's monotonic
  microsecond clock: `after` is `<` and `us_delta` is truncated subtraction.
* Sequence numbers are naturals; `after` (seq compare) is `<` on naturals.
* The `u8 sacked` flag byte is a record of booleans; the kernel mask
  `TCPCB_RETRANS` (= `TCPCB_SACKED_RETRANS | TCPCB_EVER_RETRANS`) is the
  disjunction `TcpCbFlags.retrans`.
* `tcp_min_rtt` returns a `u32` whose all-ones value `~0U` (`U32_MAX`) means
  "no RTT sample yet"; the source itself tests `tcp_min_rtt(tp) != ~0U`
  for knownness (line 43), so the sentinel encoding is kept.
* Counters (`retrans_out`, `lost_out`, …) are naturals; the decrement
  `tp->retrans_out -= tcp_skb_pcount(skb)` is truncated subtraction, which
  agrees with the kernel `u32` arithmetic whenever the kernel invariant
  `retrans_out ≥ Σ pcount of SACKED_RETRANS segments` holds (the exactness
  theorems carry that bound as a hypothesis).
-/

/-- `~0U`: the all-ones 32-bit value, used by `tcp_min_rtt` as the
"no sample yet" sentinel (tested at line 43 of the source). -/
def U32_MAX : Nat := 4294967295

/-- The per-segment flag bits of `TCP_SKB_CB(skb)->sacked` that the RACK
core reads or writes: `TCPCB_SACKED_ACKED`, `TCPCB_SACKED_RETRANS`,
`TCPCB_EVER_RETRANS` and `TCPCB_LOST`. -/
structure TcpCbFlags where
  sacked_acked : Bool := false
  sacked_retrans : Bool := false
  ever_retrans : Bool := false
  lost : Bool := false
deriving Repr, DecidableEq

/-- The kernel mask `TCPCB_RETRANS = TCPCB_SACKED_RETRANS | TCPCB_EVER_RETRANS`:
true when the segment has ever been retransmitted. -/
def TcpCbFlags.retrans (f : TcpCbFlags) : Bool :=
  f.sacked_retrans || f.ever_retrans

/-- One entry of the write queue: an `sk_buff` restricted to the fields the
RACK core touches (`end_seq`, send timestamp `skb_mstamp`, `tcp_skb_pcount`,
and the `sacked` flag byte). -/
structure SentSeg where
  end_seq : Nat := 0
  sent_time : Nat := 0
  pcount : Nat := 1
  flags : TcpCbFlags := {}
deriving Repr, DecidableEq

/-- `tp->rack`: the per-connection RACK state. `mstamp` is the reference
send time (`v64 = 0` meaning "not yet set"), `end_seq` the sequence bound
of the segment that set it, `advanced` the dirty flag, `reord` the
reordering-observed flag. -/
structure RackState where
  mstamp : Nat := 0
  rtt_us : Nat := 0
  end_seq : Nat := 0
  advanced : Bool := false
  reord : Bool := false
deriving Repr, DecidableEq

/-- The slice of `struct tcp_sock` that the RACK core reads or writes.
`segs` is the write queue in ascending sequence order; `send_head` is the
index of `tcp_send_head(sk)` within it (`segs.length` when every queued
segment has been transmitted).  `min_rtt` is the value `tcp_min_rtt`
would return (`U32_MAX` = unknown). -/
structure TcpSock where
  rack : RackState := {}
  segs : List SentSeg := []
  send_head : Nat := 0
  snd_una : Nat := 0
  packets_out : Nat := 0
  sacked_out : Nat := 0
  lost_out : Nat := 0
  retrans_out : Nat := 0
  min_rtt : Nat := U32_MAX
deriving Repr, DecidableEq

/-- Modelled from the spec: the externally maintained minimum-RTT source
(`tcp_min_rtt`, not in the source file); it yields a `u32` in microseconds
with `~0U` meaning unknown, exactly as the source's knownness test at
line 43 assumes. -/
def tcp_min_rtt (tp : TcpSock) : Nat := tp.min_rtt

/-- Modelled from the spec: sequence-number comparison `after(s1, s2)`
(header helper, not in the source file), "s1 is after s2". -/
def after (seq1 seq2 : Nat) : Bool := decide (seq2 < seq1)

/-- Modelled from the spec: `skb_mstamp_after(t1, t0)` — "t1 is strictly
later than t0" on the monotonic microsecond clock. -/
def skb_mstamp_after (t1 t0 : Nat) : Bool := decide (t0 < t1)

/-- Modelled from the spec: `skb_mstamp_us_delta(t1, t0)` — elapsed
microseconds from `t0` to `t1` (truncated at zero). -/
def skb_mstamp_us_delta (t1 t0 : Nat) : Nat := t1 - t0

/-- `tcp_rack_advance` (source lines 103–131).  Parameters follow the
source signature `(tp, sacked, end_seq, xmit_time)`; in addition `now`
stands for the internally sampled `skb_mstamp_get(&now)` and `rtt_us` is
the RTT-bookkeeping value the source assigns from an identifier not bound
by any of its visible inputs (the spec directs making it an explicit
parameter). -/
def tcp_rack_advance (tp : TcpSock) (sacked : TcpCbFlags)
    (end_seq xmit_time now rtt_us : Nat) : TcpSock :=
  if tp.rack.mstamp ≠ 0 ∧ skb_mstamp_after xmit_time tp.rack.mstamp = false then
    tp
  else if sacked.retrans = true ∧
      skb_mstamp_us_delta now xmit_time < tcp_min_rtt tp then
    tp
  else
    { tp with rack := { tp.rack with
        rtt_us := rtt_us, mstamp := xmit_time,
        end_seq := end_seq, advanced := true } }

/-- The arguments of one `tcp_rack_advance` call, for reasoning about call
sequences. -/
structure AdvCall where
  sacked : TcpCbFlags := {}
  end_seq : Nat := 0
  xmit_time : Nat := 0
  now : Nat := 0
  rtt_us : Nat := 0
deriving Repr, DecidableEq

/-- A sequence of `tcp_rack_advance` calls applied in order. -/
def tcp_rack_advance_list (tp : TcpSock) (calls : List AdvCall) : TcpSock :=
  calls.foldl
    (fun t c => tcp_rack_advance t c.sacked c.end_seq c.xmit_time c.now c.rtt_us)
    tp

/-! ## The loss scan (source lines 46–77) and the detection entry points -/

/-- The running accumulator of the loss scan: the connection counters the
scan mutates plus the minimum "remaining window" tracked for the re-check
timeout (`none` while no inconclusive segment has been seen). -/
structure ScanAcc where
  retrans_out : Nat := 0
  lost_out : Nat := 0
  timeout : Option Nat := none
deriving Repr, DecidableEq

/-- Fold one `remaining` value into the tracked minimum. -/
def minOpt (o : Option Nat) (r : Nat) : Option Nat :=
  some (min (o.getD r) r)

/-- Modelled from the spec: `tcp_skb_mark_lost_uncond_verify` (defined in
`tcp_input.c`, not in the source file) — mark the segment lost,
idempotently: when it is not already counted as lost (and not acked), set
the `LOST` flag and add its packet count to `lost_out`. -/
def tcp_skb_mark_lost_uncond_verify (lost_out : Nat) (s : SentSeg) :
    Nat × SentSeg :=
  if s.flags.lost || s.flags.sacked_acked then (lost_out, s)
  else (lost_out + s.pcount, { s with flags := { s.flags with lost := true } })

/-- Source lines 63–70: mark the segment lost and, when its
`TCPCB_SACKED_RETRANS` bit is set, clear that bit and subtract its packet
count from `retrans_out` (the statistics bump
`LINUX_MIB_TCPLOSTRETRANSMIT` is observability only and is not modelled). -/
def rack_mark_step (acc : ScanAcc) (s : SentSeg) : ScanAcc × SentSeg :=
  let ls := tcp_skb_mark_lost_uncond_verify acc.lost_out s
  if ls.2.flags.sacked_retrans then
    ({ acc with lost_out := ls.1, retrans_out := acc.retrans_out - ls.2.pcount },
     { ls.2 with flags := { ls.2.flags with sacked_retrans := false } })
  else
    ({ acc with lost_out := ls.1 }, ls.2)

/-- The write-queue scan of source lines 46–77, shared by both "mark lost"
entry points.  `rm` is `tp->rack.mstamp`, `reo_wnd` the reorder window,
`una` is `tp->snd_una`, and the `Nat` argument counts the positions before
`tcp_send_head(sk)` (the scan breaks when it reaches the send head).
The `timeout` component of the accumulator is the minimum-`remaining`
tracking of the spec's `detect_loss` (§4.2 — `tcp_rack_detect_loss` is
called at lines 91 and 144 but its body is not in the source file); the
count-returning entry point simply ignores it. -/
def tcp_rack_scan (rm reo_wnd una : Nat) :
    Nat → List SentSeg → ScanAcc → List SentSeg × ScanAcc
  | _, [], acc => ([], acc)
  | 0, segs, acc => (segs, acc)
  | n+1, s :: rest, acc =>
    if !after s.end_seq una || s.flags.sacked_acked then
      -- skip ones already (s)acked
      let rec1 := tcp_rack_scan rm reo_wnd una n rest acc
      (s :: rec1.1, rec1.2)
    else if skb_mstamp_after rm s.sent_time then
      if skb_mstamp_us_delta rm s.sent_time ≤ reo_wnd then
        -- not yet conclusive: track the minimum remaining window
        let rem := reo_wnd - skb_mstamp_us_delta rm s.sent_time
        let rec2 := tcp_rack_scan rm reo_wnd una n rest
          { acc with timeout := minOpt acc.timeout rem }
        (s :: rec2.1, rec2.2)
      else
        -- skb is lost: a packet sent later was sacked
        let ms := rack_mark_step acc s
        let rec3 := tcp_rack_scan rm reo_wnd una n rest ms.1
        (ms.2 :: rec3.1, rec3.2)
    else if TcpCbFlags.retrans s.flags = false then
      -- original data are sent sequentially, so stop early
      (s :: rest, acc)
    else
      let rec4 := tcp_rack_scan rm reo_wnd una n rest acc
      (s :: rec4.1, rec4.2)

/-- The reorder window of source lines 42–44: floor 1000 µs, widened to
`max(min_rtt >> 2, 1000)` once reordering has been observed and a
min-RTT sample exists. -/
def rack_reo_wnd (tp : TcpSock) : Nat :=
  if tp.rack.reord = true ∧ tcp_min_rtt tp ≠ U32_MAX then
    max (tcp_min_rtt tp >>> 2) 1000
  else 1000

/-- The scan accumulator seeded from the connection counters (the scan
starts from the current `retrans_out`/`lost_out`, with no timeout yet). -/
def rack_acc0 (tp : TcpSock) : ScanAcc :=
  { retrans_out := tp.retrans_out, lost_out := tp.lost_out, timeout := none }

/-- Write a finished scan's queue and counters back into the connection. -/
def rack_apply_scan (tp : TcpSock) (r : List SentSeg × ScanAcc) : TcpSock :=
  { tp with segs := r.1, retrans_out := r.2.retrans_out,
            lost_out := r.2.lost_out }

/-- Modelled from the spec: `tcp_rack_detect_loss` (§4.2; called at source
lines 91 and 144 but not defined in the source file).  Computes the
reorder window (source lines 42–44), scans the write queue (source lines
46–77) and returns the minimum remaining window among the inconclusive
segments as the next re-check timeout (`none` when there is none).  The
`now` argument of the call sites is unused: detection compares send times
against the reference time only.  The dirty-flag fast path lives in the
*callers* (source lines 28–32 and 86–90), not here. -/
def tcp_rack_detect_loss (tp : TcpSock) : TcpSock × Option Nat :=
  let reo_wnd := rack_reo_wnd tp
  let r := tcp_rack_scan tp.rack.mstamp reo_wnd tp.snd_una tp.send_head tp.segs
    (rack_acc0 tp)
  (rack_apply_scan tp r, r.2.timeout)

/-! ## Socket-level state and the entry points of source lines 22–97, 136–155 -/

/-- The congestion-avoidance states of `icsk_ca_state`, in the kernel's
numeric order (`Open < Disorder < CWR < Recovery < Loss`). -/
inductive CaState where
  | open_ | disorder | cwr | recovery | loss
deriving Repr, DecidableEq

/-- The kernel's numeric value of each congestion state, for the
`icsk_ca_state < TCP_CA_Recovery` comparison of source line 28. -/
def CaState.toNat : CaState → Nat
  | .open_ => 0
  | .disorder => 1
  | .cwr => 2
  | .recovery => 3
  | .loss => 4

/-- The pending-timer kind `icsk_pending` (only the values this core
tests or sets are distinguished). -/
inductive IcskPending where
  | idle | retrans | delack | probe0 | reoTimeout
deriving Repr, DecidableEq

/-- The slice of `struct sock` / `inet_connection_sock` the RACK core
reads or writes: the tcp state, the congestion state, the pending-timer
kind, the retransmission timeout, and whether the congestion-control ops
provide a `cong_control` hook. -/
structure Sock where
  tp : TcpSock := {}
  ca_state : CaState := .open_
  icsk_pending : IcskPending := .idle
  icsk_rto : Nat := 0
  has_cong_control : Bool := false
deriving Repr, DecidableEq

/-- The count-returning `tcp_rack_mark_lost` variant (source lines 22–79):
gated on `icsk_ca_state ≥ TCP_CA_Recovery` and the dirty flag, it clears
the dirty flag, computes the reorder window, scans the write queue and
returns `prior_retrans - tp->retrans_out` (the re-check timeout tracked by
the shared scan is ignored by this variant, which has no timer). -/
def tcp_rack_mark_lost_count (sk : Sock) : Sock × Nat :=
  let prior_retrans := sk.tp.retrans_out
  if sk.ca_state.toNat < CaState.recovery.toNat ∨ sk.tp.rack.advanced = false then
    (sk, 0)
  else
    let tp1 := { sk.tp with rack := { sk.tp.rack with advanced := false } }
    let reo_wnd := rack_reo_wnd tp1
    let r := tcp_rack_scan tp1.rack.mstamp reo_wnd tp1.snd_una tp1.send_head
      tp1.segs (rack_acc0 tp1)
    ({ sk with tp := rack_apply_scan tp1 r }, prior_retrans - r.2.retrans_out)

/-- Modelled from the spec: the fixed minimum re-check delay
`TCP_REO_TIMEOUT_MIN` (2000 µs; header constant, not in the source file). -/
def TCP_REO_TIMEOUT_MIN : Nat := 2000

/-- Modelled from the spec: microseconds in one scheduler tick, for the
platform tick-rounding of `usecs_to_jiffies` (HZ = 100). -/
def USEC_PER_JIFFY : Nat := 10000

/-- Modelled from the spec: `usecs_to_jiffies` — convert microseconds to
ticks, rounding up so the timer never fires earlier than the delay. -/
def usecs_to_jiffies (us : Nat) : Nat :=
  (us + USEC_PER_JIFFY - 1) / USEC_PER_JIFFY

/-- `tp` with the dirty flag cleared (source lines 32 and 90). -/
def rack_cleared (tp : TcpSock) : TcpSock :=
  { tp with rack := { tp.rack with advanced := false } }

/-- The timeout-returning `tcp_rack_mark_lost` variant (source lines
81–97): if the dirty flag is clear, do nothing; otherwise clear it, run
`tcp_rack_detect_loss`, and — when the returned timeout (a `u32` out
parameter in the source, where `0` encodes "none") is nonzero — arm the
one-shot `ICSK_TIME_REO_TIMEOUT` timer for
`usecs_to_jiffies(timeout + TCP_REO_TIMEOUT_MIN)` ticks.  The second
component is the armed tick count (`none` = no timer armed). -/
def tcp_rack_mark_lost (sk : Sock) : Sock × Option Nat :=
  if sk.tp.rack.advanced = false then (sk, none)
  else
    let r := tcp_rack_detect_loss (rack_cleared sk.tp)
    let timeout := r.2.getD 0
    if timeout ≠ 0 then
      ({ sk with tp := r.1, icsk_pending := .reoTimeout },
       some (usecs_to_jiffies (timeout + TCP_REO_TIMEOUT_MIN)))
    else
      ({ sk with tp := r.1 }, none)

/-- Modelled from the spec: `tcp_packets_in_flight` (header helper, not in
the source file): `packets_out - (sacked_out + lost_out) + retrans_out`. -/
def tcp_packets_in_flight (tp : TcpSock) : Nat :=
  tp.packets_out - (tp.sacked_out + tp.lost_out) + tp.retrans_out

/-- The requests `tcp_rack_reo_timeout` issues to its external
collaborators (congestion control, the retransmission path and the timer
subsystem); each is modelled as a boolean "was requested" flag. -/
structure ReoActions where
  entered_recovery : Bool := false
  cwnd_reduced : Bool := false
  xmit_retransmit : Bool := false
  rearmed_rto : Bool := false
deriving Repr, DecidableEq

/-- `tcp_rack_reo_timeout` (source lines 136–155): snapshot the in-flight
count, run the loss detector (its timeout result is unused here), and if
the in-flight count changed: enter recovery when not already in
`TCP_CA_Recovery` (with a one-segment `tcp_cwnd_reduction` when the
congestion-control ops have no `cong_control` hook) and request
`tcp_xmit_retransmit_queue`; finally re-arm the ordinary retransmission
timer via `tcp_rearm_rto` unless `icsk_pending` is already
`ICSK_TIME_RETRANS`.  `tcp_enter_recovery`, `tcp_cwnd_reduction`,
`tcp_xmit_retransmit_queue` and `tcp_rearm_rto` are external
collaborators; they are modelled from the spec as requests, with
`tcp_enter_recovery` setting the congestion state to `recovery` and
`tcp_rearm_rto` making the retransmission timer the pending kind. -/
def tcp_rack_reo_timeout (sk : Sock) : Sock × ReoActions :=
  let prior_inflight := tcp_packets_in_flight sk.tp
  let tp2 := (tcp_rack_detect_loss sk.tp).1
  let sk2 : Sock := { sk with tp := tp2 }
  let changed := prior_inflight ≠ tcp_packets_in_flight tp2
  let enter := changed ∧ sk2.ca_state ≠ CaState.recovery
  let sk3 := if enter then { sk2 with ca_state := CaState.recovery } else sk2
  let reduce := enter ∧ sk.has_cong_control = false
  let rearm := sk3.icsk_pending ≠ IcskPending.retrans
  let sk4 := if rearm then { sk3 with icsk_pending := IcskPending.retrans } else sk3
  (sk4,
   { entered_recovery := decide enter, cwnd_reduced := decide reduce,
     xmit_retransmit := decide changed, rearmed_rto := decide rearm })

/-- The `remaining = reo_wnd - elapsed` values of the inconclusive
segments, in the order the scan of source lines 46–77 visits them: a
pure mirror of the scan's traversal (same skip, early-stop and send-head
rules) that collects values only and mutates nothing. -/
def rack_rem_list (rm reo_wnd una : Nat) : Nat → List SentSeg → List Nat
  | _, [] => []
  | 0, _ => []
  | n+1, s :: rest =>
    if !after s.end_seq una || s.flags.sacked_acked then
      rack_rem_list rm reo_wnd una n rest
    else if skb_mstamp_after rm s.sent_time then
      if skb_mstamp_us_delta rm s.sent_time ≤ reo_wnd then
        (reo_wnd - skb_mstamp_us_delta rm s.sent_time) ::
          rack_rem_list rm reo_wnd una n rest
      else
        rack_rem_list rm reo_wnd una n rest
    else if TcpCbFlags.retrans s.flags = false then
      []
    else
      rack_rem_list rm reo_wnd una n rest

/-- The minimum of a list of naturals, `none` when the list is empty. -/
def listMin : List Nat → Option Nat
  | [] => none
  | a :: as => some (as.foldl min a)

/-! ## Properties of RackAdvance -/

lemma tcp_rack_advance_mstamp_le (tp : TcpSock) (sacked : TcpCbFlags)
    (e x now r : Nat) :
    tp.rack.mstamp ≤ (tcp_rack_advance tp sacked e x now r).rack.mstamp := by
  unfold tcp_rack_advance
  by_cases h1 : tp.rack.mstamp ≠ 0 ∧ skb_mstamp_after x tp.rack.mstamp = false
  · simp [h1]
  · by_cases h2 : sacked.retrans = true ∧
        skb_mstamp_us_delta now x < tcp_min_rtt tp
    · simp [h1, h2]
    · simp only [if_neg h1, if_neg h2]
      rcases Decidable.not_and_iff_or_not.mp h1 with h | h
      · simp only [ne_eq, Decidable.not_not] at h
        simp [h]
      · simp only [skb_mstamp_after, Bool.not_eq_false, decide_eq_true_eq] at h
        exact le_of_lt h

/-- **C1 (amended)**: for an `advance` call on a segment whose
retransmitted flag is set, (1) if the elapsed time from `xmit_time` to
`now` is below `tcp_min_rtt tp` the call returns the state unchanged;
(2) in particular, when `min_rtt` is *unknown* the sentinel `U32_MAX`
is used in the very same comparison, so any elapsed time below `2^32 − 1`
microseconds also leaves the state unchanged (the update is **not**
accepted unconditionally); (3) when the elapsed time is at least
`tcp_min_rtt tp` and the forward-motion gate passes, the update is
accepted: `reference_time`/`reference_end_seq` are set from the segment
and the dirty flag is raised. -/
theorem tcp_rack_advance_retrans_gate (tp : TcpSock) (sacked : TcpCbFlags)
    (e x now r : Nat) (hret : sacked.retrans = true) :
    (skb_mstamp_us_delta now x < tcp_min_rtt tp →
       tcp_rack_advance tp sacked e x now r = tp)
    ∧ (tp.min_rtt = U32_MAX → skb_mstamp_us_delta now x < U32_MAX →
       tcp_rack_advance tp sacked e x now r = tp)
    ∧ (tcp_min_rtt tp ≤ skb_mstamp_us_delta now x →
       (tp.rack.mstamp = 0 ∨ skb_mstamp_after x tp.rack.mstamp = true) →
       (tcp_rack_advance tp sacked e x now r).rack.mstamp = x
       ∧ (tcp_rack_advance tp sacked e x now r).rack.end_seq = e
       ∧ (tcp_rack_advance tp sacked e x now r).rack.advanced = true) := by
  refine ⟨?_, ?_, ?_⟩
  · intro hlt
    unfold tcp_rack_advance
    by_cases h1 : tp.rack.mstamp ≠ 0 ∧ skb_mstamp_after x tp.rack.mstamp = false
    · simp [h1]
    · simp [h1, hret, hlt]
  · intro hunk hlt
    unfold tcp_rack_advance
    by_cases h1 : tp.rack.mstamp ≠ 0 ∧ skb_mstamp_after x tp.rack.mstamp = false
    · simp [h1]
    · have : skb_mstamp_us_delta now x < tcp_min_rtt tp := by
        simpa [tcp_min_rtt, hunk] using hlt
      simp [h1, hret, this]
  · intro hge hfwd
    have h1 : ¬ (tp.rack.mstamp ≠ 0 ∧ skb_mstamp_after x tp.rack.mstamp = false) := by
      rcases hfwd with h | h
      · intro hc; exact hc.1 h
      · intro hc; rw [h] at hc; exact Bool.true_eq_false.mp hc.2
    have h2 : ¬ (sacked.retrans = true ∧
        skb_mstamp_us_delta now x < tcp_min_rtt tp) := by
      intro hc; exact absurd hc.2 (not_lt.mpr hge)
    unfold tcp_rack_advance
    simp [h1, h2]

/-- Witness for `tcp_rack_advance_retrans_gate` at a concrete input:
`min_rtt = 50` known, elapsed `= 100 ≥ 50`, reference unset — the update
is accepted. -/
theorem tcp_rack_advance_retrans_gate_witness :
    (tcp_rack_advance ({ min_rtt := 50 } : TcpSock)
        ({ sacked_retrans := true } : TcpCbFlags) 7 100 200 9).rack.mstamp = 100 :=
  (And.right (And.right (tcp_rack_advance_retrans_gate
      ({ min_rtt := 50 } : TcpSock) ({ sacked_retrans := true } : TcpCbFlags)
      7 100 200 9 (by decide)))
    (by decide) (Or.inl (by decide))).1

/-- **C1 counterexample**: with `min_rtt` unknown (`U32_MAX` sentinel), a
retransmitted segment with elapsed time `100 < 2^32 − 1` is *rejected*:
the call returns the state unchanged and the reference time does not move
to the segment's send time, contradicting "when `min_rtt` is unknown the
update is accepted unconditionally". -/
theorem tcp_rack_advance_unknown_minrtt_cex :
    tcp_rack_advance ({} : TcpSock)
        ({ sacked_retrans := true } : TcpCbFlags) 50 100 200 7 = ({} : TcpSock)
    ∧ (tcp_rack_advance ({} : TcpSock)
        ({ sacked_retrans := true } : TcpCbFlags) 50 100 200 7).rack.mstamp ≠ 100
    ∧ (tcp_rack_advance ({} : TcpSock)
        ({ sacked_retrans := true } : TcpCbFlags) 50 100 200 7).rack.advanced = false
    ∧ ({} : TcpSock).min_rtt = U32_MAX := by
  refine ⟨by decide, by decide, by decide, by decide⟩

/-- **C6**: (1) when the reference time is already set and is not strictly
older than the segment's send time, `advance` returns the state unchanged
(no RackState field moves); (2) consequently over any sequence of
`advance` calls on non-ambiguous (never-retransmitted) segments the
reference time is non-decreasing. -/
theorem tcp_rack_advance_monotone :
    (∀ (tp : TcpSock) (sacked : TcpCbFlags) (e x now r : Nat),
       tp.rack.mstamp ≠ 0 → skb_mstamp_after x tp.rack.mstamp = false →
         tcp_rack_advance tp sacked e x now r = tp)
    ∧ (∀ (tp : TcpSock) (calls : List AdvCall),
       (∀ c ∈ calls, c.sacked.retrans = false) →
         tp.rack.mstamp ≤ (tcp_rack_advance_list tp calls).rack.mstamp) := by
  constructor
  · intro tp sacked e x now r h0 hle
    unfold tcp_rack_advance
    simp [h0, hle]
  · intro tp calls
    induction calls generalizing tp with
    | nil => intro _; exact le_refl _
    | cons c cs ih =>
      intro hall
      have step := tcp_rack_advance_mstamp_le tp c.sacked c.end_seq
        c.xmit_time c.now c.rtt_us
      have tail := ih (tcp_rack_advance tp c.sacked c.end_seq c.xmit_time
        c.now c.rtt_us) (fun d hd => hall d (List.mem_cons_of_mem _ hd))
      exact le_trans step tail

/-- Witness for `tcp_rack_advance_monotone` at concrete inputs: a set
reference at time 5 with a segment sent at time 3 leaves the state
unchanged, and a two-call non-ambiguous sequence never lowers the
reference time. -/
theorem tcp_rack_advance_monotone_witness :
    tcp_rack_advance ({ rack := { mstamp := 5 } } : TcpSock) ({} : TcpCbFlags)
        9 3 10 1 = ({ rack := { mstamp := 5 } } : TcpSock)
    ∧ ({ rack := { mstamp := 5 } } : TcpSock).rack.mstamp ≤
        (tcp_rack_advance_list ({ rack := { mstamp := 5 } } : TcpSock)
          [{ xmit_time := 8 }, { xmit_time := 6 }]).rack.mstamp :=
  ⟨tcp_rack_advance_monotone.1 ({ rack := { mstamp := 5 } } : TcpSock)
      ({} : TcpCbFlags) 9 3 10 1 (by decide) (by decide),
   tcp_rack_advance_monotone.2 ({ rack := { mstamp := 5 } } : TcpSock)
      [{ xmit_time := 8 }, { xmit_time := 6 }] (by decide)⟩

/-! ## Properties of the loss scan -/

/-- The marking step never touches the tracked timeout. -/
lemma rack_mark_step_timeout (acc : ScanAcc) (s : SentSeg) :
    (rack_mark_step acc s).1.timeout = acc.timeout := by
  unfold rack_mark_step tcp_skb_mark_lost_uncond_verify
  by_cases h : (s.flags.lost || s.flags.sacked_acked) = true
  · simp only [if_pos h]
    by_cases h2 : s.flags.sacked_retrans = true <;> simp [h2]
  · simp only [if_neg h]
    by_cases h2 : s.flags.sacked_retrans = true <;> simp [h2]

/-- The marking step never increases `retrans_out`. -/
lemma rack_mark_step_retrans_le (acc : ScanAcc) (s : SentSeg) :
    (rack_mark_step acc s).1.retrans_out ≤ acc.retrans_out := by
  unfold rack_mark_step tcp_skb_mark_lost_uncond_verify
  by_cases h : (s.flags.lost || s.flags.sacked_acked) = true
  · simp only [if_pos h]
    by_cases h2 : s.flags.sacked_retrans = true <;> simp [h2, Nat.sub_le]
  · simp only [if_neg h]
    by_cases h2 : s.flags.sacked_retrans = true <;> simp [h2, Nat.sub_le]

/-- The marking step never decreases `lost_out`. -/
lemma rack_mark_step_lost_ge (acc : ScanAcc) (s : SentSeg) :
    acc.lost_out ≤ (rack_mark_step acc s).1.lost_out := by
  unfold rack_mark_step tcp_skb_mark_lost_uncond_verify
  by_cases h : (s.flags.lost || s.flags.sacked_acked) = true
  · simp only [if_pos h]
    by_cases h2 : s.flags.sacked_retrans = true <;> simp [h2]
  · simp only [if_neg h]
    by_cases h2 : s.flags.sacked_retrans = true <;> simp [h2, Nat.le_add_right]

/-- At the send head (count 0) the scan stops and returns everything
unchanged. -/
lemma tcp_rack_scan_zero (rm w una : Nat) (segs : List SentSeg)
    (acc : ScanAcc) : tcp_rack_scan rm w una 0 segs acc = (segs, acc) := by
  cases segs <;> simp [tcp_rack_scan]

/-- **C2**: during the scan, an unacked segment whose send time is at or
after the reference time stops the scan entirely when it is an original
(non-retransmitted) transmission — every later segment and the
accumulator are returned untouched — and does *not* stop the scan when it
carries the retransmitted mask: the scan skips it unchanged and continues
with the later segments. -/
theorem tcp_rack_scan_early_stop (rm w una n : Nat) (s : SentSeg)
    (rest : List SentSeg) (acc : ScanAcc)
    (hseq : after s.end_seq una = true)
    (hack : s.flags.sacked_acked = false)
    (hat : skb_mstamp_after rm s.sent_time = false) :
    (TcpCbFlags.retrans s.flags = false →
      tcp_rack_scan rm w una (n+1) (s :: rest) acc = (s :: rest, acc))
    ∧ (TcpCbFlags.retrans s.flags = true →
      tcp_rack_scan rm w una (n+1) (s :: rest) acc =
        (s :: (tcp_rack_scan rm w una n rest acc).1,
         (tcp_rack_scan rm w una n rest acc).2)) := by
  constructor
  · intro hret
    simp [tcp_rack_scan, hseq, hack, hat, hret]
  · intro hret
    simp [tcp_rack_scan, hseq, hack, hat, hret]

/-- Witness for `tcp_rack_scan_early_stop`: a retransmitted segment sent
at the reference time (25 ≥ 25) does not stop the scan — the later
original sent long before the reference is still marked lost. -/
theorem tcp_rack_scan_early_stop_witness :
    tcp_rack_scan 25 3 0 2
        [{ end_seq := 10, sent_time := 25,
           flags := { ever_retrans := true } },
         { end_seq := 20, sent_time := 1 }] {} =
      ({ end_seq := 10, sent_time := 25,
         flags := { ever_retrans := true } } ::
        (tcp_rack_scan 25 3 0 1 [{ end_seq := 20, sent_time := 1 }] {}).1,
       (tcp_rack_scan 25 3 0 1 [{ end_seq := 20, sent_time := 1 }] {}).2) :=
  (tcp_rack_scan_early_stop 25 3 0 1
      ({ end_seq := 10, sent_time := 25, flags := { ever_retrans := true } })
      [{ end_seq := 20, sent_time := 1 }] {}
      (by decide) (by decide) (by decide)).2 (by decide)

/-- **C3**: during the scan, an unacked segment sent strictly before the
reference time whose elapsed time exceeds the reorder window is marked
lost (idempotently: an already-lost segment stays lost and adds nothing
to `lost_out`), and when its `SACKED_RETRANS` bit was set the bit is
cleared and `retrans_out` is decremented by the segment's packet count;
the scan then continues with the later segments. -/
theorem tcp_rack_scan_marks_expired (rm w una n : Nat) (s : SentSeg)
    (rest : List SentSeg) (acc : ScanAcc)
    (hseq : after s.end_seq una = true)
    (hack : s.flags.sacked_acked = false)
    (hbefore : skb_mstamp_after rm s.sent_time = true)
    (hexp : w < skb_mstamp_us_delta rm s.sent_time) :
    tcp_rack_scan rm w una (n+1) (s :: rest) acc =
      ((rack_mark_step acc s).2 ::
        (tcp_rack_scan rm w una n rest (rack_mark_step acc s).1).1,
       (tcp_rack_scan rm w una n rest (rack_mark_step acc s).1).2)
    ∧ (rack_mark_step acc s).2.flags.lost = true
    ∧ (rack_mark_step acc s).2.flags.sacked_retrans = false
    ∧ (s.flags.sacked_retrans = true →
        (rack_mark_step acc s).1.retrans_out = acc.retrans_out - s.pcount)
    ∧ (s.flags.sacked_retrans = true → s.pcount ≤ acc.retrans_out →
        (rack_mark_step acc s).1.retrans_out + s.pcount = acc.retrans_out)
    ∧ (s.flags.sacked_retrans = false →
        (rack_mark_step acc s).1.retrans_out = acc.retrans_out)
    ∧ (s.flags.lost = true → (rack_mark_step acc s).1.lost_out = acc.lost_out) := by
  have hstep : tcp_rack_scan rm w una (n+1) (s :: rest) acc =
      ((rack_mark_step acc s).2 ::
        (tcp_rack_scan rm w una n rest (rack_mark_step acc s).1).1,
       (tcp_rack_scan rm w una n rest (rack_mark_step acc s).1).2) := by
    simp [tcp_rack_scan, hseq, hack, hbefore, Nat.not_le.mpr hexp]
  refine ⟨hstep, ?_, ?_, ?_, ?_, ?_, ?_⟩ <;>
    · unfold rack_mark_step tcp_skb_mark_lost_uncond_verify
      cases hl : s.flags.lost <;>
        cases hr : s.flags.sacked_retrans <;>
          simp [hack, hl, hr] <;> exact fun hp => Nat.sub_add_cancel hp

/-- Witness for `tcp_rack_scan_marks_expired`: a sacked-retransmitted
segment 9 µs older than the reference with window 3 is marked lost, its
retransmitted bit cleared and `retrans_out` lowered from 2 to 1. -/
theorem tcp_rack_scan_marks_expired_witness :
    tcp_rack_scan 10 3 0 1
        [{ end_seq := 5, sent_time := 1,
           flags := { sacked_retrans := true } }] { retrans_out := 2 } =
      ((rack_mark_step { retrans_out := 2 }
          { end_seq := 5, sent_time := 1,
            flags := { sacked_retrans := true } }).2 ::
        (tcp_rack_scan 10 3 0 0 []
          (rack_mark_step { retrans_out := 2 }
            { end_seq := 5, sent_time := 1,
              flags := { sacked_retrans := true } }).1).1,
       (tcp_rack_scan 10 3 0 0 []
          (rack_mark_step { retrans_out := 2 }
            { end_seq := 5, sent_time := 1,
              flags := { sacked_retrans := true } }).1).2)
    ∧ (rack_mark_step { retrans_out := 2 }
        { end_seq := 5, sent_time := 1,
          flags := { sacked_retrans := true } }).1.retrans_out + 1 = 2 :=
  ⟨(tcp_rack_scan_marks_expired 10 3 0 0
      ({ end_seq := 5, sent_time := 1, flags := { sacked_retrans := true } })
      [] { retrans_out := 2 } (by decide) (by decide) (by decide) (by decide)).1,
   (tcp_rack_scan_marks_expired 10 3 0 0
      ({ end_seq := 5, sent_time := 1, flags := { sacked_retrans := true } })
      [] { retrans_out := 2 } (by decide) (by decide) (by decide)
      (by decide)).2.2.2.2.1 (by decide) (by decide)⟩

/-- Folding `minOpt` from a known minimum is the plain `min` fold. -/
lemma foldl_minOpt_some (l : List Nat) (b : Nat) :
    l.foldl minOpt (some b) = some (l.foldl min b) := by
  induction l generalizing b with
  | nil => rfl
  | cons a as ih => simp [minOpt, ih]

/-- Folding `minOpt` from `none` computes the minimum of the list. -/
lemma foldl_minOpt_none (l : List Nat) :
    l.foldl minOpt none = listMin l := by
  cases l with
  | nil => rfl
  | cons a as => simp [listMin, minOpt, foldl_minOpt_some]

/-- The scan's tracked timeout is the `minOpt` fold of the remaining
values collected by `rack_rem_list` along the same traversal. -/
lemma tcp_rack_scan_timeout_foldl (rm w una : Nat) :
    ∀ (segs : List SentSeg) (n : Nat) (acc : ScanAcc),
      (tcp_rack_scan rm w una n segs acc).2.timeout =
        (rack_rem_list rm w una n segs).foldl minOpt acc.timeout := by
  intro segs
  induction segs with
  | nil => intro n acc; cases n <;> simp [tcp_rack_scan, rack_rem_list]
  | cons s rest ih =>
    intro n acc
    cases n with
    | zero => simp [tcp_rack_scan, rack_rem_list]
    | succ m =>
      cases hskip : (!after s.end_seq una || s.flags.sacked_acked) with
      | true => simp [tcp_rack_scan, rack_rem_list, hskip, ih]
      | false =>
        cases hafter : skb_mstamp_after rm s.sent_time with
        | true =>
          by_cases hle : skb_mstamp_us_delta rm s.sent_time ≤ w
          · simp [tcp_rack_scan, rack_rem_list, hskip, hafter, hle, ih]
          · simp [tcp_rack_scan, rack_rem_list, hskip, hafter, hle, ih,
              rack_mark_step_timeout]
        | false =>
          cases hret : TcpCbFlags.retrans s.flags with
          | false => simp [tcp_rack_scan, rack_rem_list, hskip, hafter, hret]
          | true => simp [tcp_rack_scan, rack_rem_list, hskip, hafter, hret, ih]

/-- **C4**: (1) the timeout returned by `tcp_rack_detect_loss` is the
minimum of `reo_wnd − elapsed` over exactly the inconclusive segments the
scan encounters (`rack_rem_list`), and it is `none` when no scanned
segment is in that state; (2) a scanned unacked segment sent strictly
before the reference time with `elapsed ≤ reo_wnd` is *not* marked lost
— the scan keeps it byte-for-byte unchanged, folds its remaining window
into the tracked minimum, and continues. -/
theorem tcp_rack_detect_loss_timeout_min :
    (∀ tp : TcpSock,
      (tcp_rack_detect_loss tp).2 =
        listMin (rack_rem_list tp.rack.mstamp (rack_reo_wnd tp) tp.snd_una
          tp.send_head tp.segs))
    ∧ (∀ (rm w una n : Nat) (s : SentSeg) (rest : List SentSeg) (acc : ScanAcc),
        after s.end_seq una = true → s.flags.sacked_acked = false →
        skb_mstamp_after rm s.sent_time = true →
        skb_mstamp_us_delta rm s.sent_time ≤ w →
        tcp_rack_scan rm w una (n+1) (s :: rest) acc =
          (s :: (tcp_rack_scan rm w una n rest { acc with timeout := minOpt acc.timeout (w - skb_mstamp_us_delta rm s.sent_time) }).1,
           (tcp_rack_scan rm w una n rest { acc with timeout := minOpt acc.timeout (w - skb_mstamp_us_delta rm s.sent_time) }).2)) := by
  constructor
  · intro tp
    show (tcp_rack_scan tp.rack.mstamp (rack_reo_wnd tp) tp.snd_una
        tp.send_head tp.segs (rack_acc0 tp)).2.timeout = _
    rw [tcp_rack_scan_timeout_foldl]
    show (rack_rem_list _ _ _ _ _).foldl minOpt none = _
    exact foldl_minOpt_none _
  · intro rm w una n s rest acc hseq hack hafter hle
    simp [tcp_rack_scan, hseq, hack, hafter, hle]

/-- Witness for `tcp_rack_detect_loss_timeout_min`: two inconclusive
segments with remaining windows 993 and 997 against the floor window —
`detect_loss` returns `some 993`, and the head step keeps the segment
unmarked. -/
theorem tcp_rack_detect_loss_timeout_min_witness :
    (tcp_rack_detect_loss
        ({ rack := { mstamp := 10 },
           segs := [{ end_seq := 5, sent_time := 3 },
                    { end_seq := 9, sent_time := 7 }],
           send_head := 2 } : TcpSock)).2 = some 993
    ∧ tcp_rack_scan 10 8 0 1 [{ end_seq := 5, sent_time := 3 }] {} =
        ({ end_seq := 5, sent_time := 3 } ::
          (tcp_rack_scan 10 8 0 0 []
            ({ timeout := minOpt none 1 } : ScanAcc)).1,
         (tcp_rack_scan 10 8 0 0 []
            ({ timeout := minOpt none 1 } : ScanAcc)).2) := by
  constructor
  · rw [tcp_rack_detect_loss_timeout_min.1]
    decide
  · have h := tcp_rack_detect_loss_timeout_min.2 10 8 0 0
      ({ end_seq := 5, sent_time := 3 } : SentSeg) [] {}
      (by decide) (by decide) (by decide) (by decide)
    simpa using h

/-- **C5**: the reorder window used by the loss scans is never below the
1000 µs floor; when reordering has been observed and a min-RTT sample
exists it is `max(min_rtt / 4, 1000)`, and otherwise it is exactly the
floor. -/
theorem rack_reo_wnd_floor (tp : TcpSock) :
    1000 ≤ rack_reo_wnd tp
    ∧ (tp.rack.reord = true → tcp_min_rtt tp ≠ U32_MAX →
        rack_reo_wnd tp = max (tcp_min_rtt tp / 4) 1000)
    ∧ (tp.rack.reord = false ∨ tcp_min_rtt tp = U32_MAX →
        rack_reo_wnd tp = 1000) := by
  have hshift : tcp_min_rtt tp >>> 2 = tcp_min_rtt tp / 4 := by
    rw [Nat.shiftRight_eq_div_pow]
  refine ⟨?_, ?_, ?_⟩
  · unfold rack_reo_wnd
    split
    · exact le_max_right _ _
    · exact le_refl _
  · intro hre hmr
    unfold rack_reo_wnd
    rw [if_pos ⟨hre, hmr⟩, hshift]
  · intro h
    unfold rack_reo_wnd
    rcases h with h | h
    · rw [if_neg]
      intro hc
      rw [h] at hc
      exact Bool.false_ne_true hc.1
    · rw [if_neg]
      intro hc
      exact hc.2 h

/-- Witness for `rack_reo_wnd_floor`: with reordering observed and
`min_rtt = 8000`, the window is `max(2000, 1000) = 2000`; with `min_rtt`
unknown it is the floor. -/
theorem rack_reo_wnd_floor_witness :
    rack_reo_wnd ({ rack := { reord := true }, min_rtt := 8000 } : TcpSock)
      = 2000
    ∧ rack_reo_wnd ({ rack := { reord := true } } : TcpSock) = 1000 := by
  constructor
  · have h := (rack_reo_wnd_floor
        ({ rack := { reord := true }, min_rtt := 8000 } : TcpSock)).2.1
      (by decide) (by decide)
    simpa using h
  · exact (rack_reo_wnd_floor ({ rack := { reord := true } } : TcpSock)).2.2
      (Or.inr (by decide))

/-- **C10**: the scan never examines anything at or past the send head —
for any split of the queue with at most `n` (= the send-head index)
segments before the tail `ys`, the scan of `xs ++ ys` touches only `xs`:
the tail is returned byte-for-byte and the accumulator (counters and
timeout) is exactly what scanning `xs` alone produces. -/
theorem tcp_rack_scan_stops_at_send_head (rm w una : Nat) :
    ∀ (xs ys : List SentSeg) (n : Nat) (acc : ScanAcc), n ≤ xs.length →
      tcp_rack_scan rm w una n (xs ++ ys) acc =
        ((tcp_rack_scan rm w una n xs acc).1 ++ ys,
         (tcp_rack_scan rm w una n xs acc).2) := by
  intro xs
  induction xs with
  | nil =>
    intro ys n acc hn
    have h0 : n = 0 := Nat.le_zero.mp hn
    subst h0
    simp [tcp_rack_scan_zero, tcp_rack_scan]
  | cons x xs ih =>
    intro ys n acc hn
    cases n with
    | zero => simp [tcp_rack_scan_zero]
    | succ m =>
      have hm : m ≤ xs.length := Nat.succ_le_succ_iff.mp hn
      cases hskip : (!after x.end_seq una || x.flags.sacked_acked) with
      | true => simp [tcp_rack_scan, hskip, ih ys m _ hm]
      | false =>
        cases hafter : skb_mstamp_after rm x.sent_time with
        | true =>
          by_cases hle : skb_mstamp_us_delta rm x.sent_time ≤ w
          · simp [tcp_rack_scan, hskip, hafter, hle, ih ys m _ hm]
          · simp [tcp_rack_scan, hskip, hafter, hle, ih ys m _ hm]
        | false =>
          cases hret : TcpCbFlags.retrans x.flags with
          | false => simp [tcp_rack_scan, hskip, hafter, hret]
          | true => simp [tcp_rack_scan, hskip, hafter, hret, ih ys m _ hm]

/-- Witness for `tcp_rack_scan_stops_at_send_head`: one transmitted
segment before the send head and one untransmitted (old, unacked) segment
behind it — the scan marks the first and leaves the second untouched. -/
theorem tcp_rack_scan_stops_at_send_head_witness :
    tcp_rack_scan 5000 1000 0 1
        ([{ end_seq := 5, sent_time := 1 }] ++ [{ end_seq := 9, sent_time := 2 }])
        {} =
      ((tcp_rack_scan 5000 1000 0 1 [{ end_seq := 5, sent_time := 1 }] {}).1 ++
          [{ end_seq := 9, sent_time := 2 }],
       (tcp_rack_scan 5000 1000 0 1 [{ end_seq := 5, sent_time := 1 }] {}).2) :=
  tcp_rack_scan_stops_at_send_head 5000 1000 0
    [{ end_seq := 5, sent_time := 1 }] [{ end_seq := 9, sent_time := 2 }]
    1 {} (by decide)

/-- The loss detector never touches the RACK record (reference time,
dirty flag, reordering flag are all preserved). -/
lemma tcp_rack_detect_loss_rack (tp : TcpSock) :
    (tcp_rack_detect_loss tp).1.rack = tp.rack := rfl

/-- **C7**: with the dirty flag clear, (1) the timeout-returning
mark-lost entry point is a no-op that arms nothing, and (2) the
count-returning one is a no-op returning 0; (3) consequently a second
mark-lost call immediately after any first one (which always leaves the
dirty flag clear) is a no-op that arms nothing. -/
theorem tcp_rack_mark_lost_not_dirty_noop :
    (∀ sk : Sock, sk.tp.rack.advanced = false →
      tcp_rack_mark_lost sk = (sk, none))
    ∧ (∀ sk : Sock, sk.tp.rack.advanced = false →
      tcp_rack_mark_lost_count sk = (sk, 0))
    ∧ (∀ sk : Sock, tcp_rack_mark_lost (tcp_rack_mark_lost sk).1 =
        ((tcp_rack_mark_lost sk).1, none)) := by
  have h1 : ∀ sk : Sock, sk.tp.rack.advanced = false →
      tcp_rack_mark_lost sk = (sk, none) := by
    intro sk h
    unfold tcp_rack_mark_lost
    rw [if_pos h]
  refine ⟨h1, ?_, ?_⟩
  · intro sk h
    unfold tcp_rack_mark_lost_count
    rw [if_pos (Or.inr h)]
  · intro sk
    apply h1
    by_cases h : sk.tp.rack.advanced = false
    · rw [h1 sk h]
      exact h
    · have hT : sk.tp.rack.advanced = true := by
        cases hx : sk.tp.rack.advanced
        · exact absurd hx h
        · rfl
      have hrack : (tcp_rack_detect_loss (rack_cleared sk.tp)).1.rack.advanced
          = false := by
        rw [tcp_rack_detect_loss_rack]
        rfl
      unfold tcp_rack_mark_lost
      rw [if_neg (by simp [hT])]
      dsimp only
      split
      · exact hrack
      · exact hrack

/-- Witness for `tcp_rack_mark_lost_not_dirty_noop`: a clean socket is
left untouched by both entry points, and a dirty socket's second
mark-lost call is a no-op. -/
theorem tcp_rack_mark_lost_not_dirty_noop_witness :
    tcp_rack_mark_lost ({} : Sock) = (({} : Sock), none)
    ∧ tcp_rack_mark_lost_count ({} : Sock) = (({} : Sock), 0)
    ∧ tcp_rack_mark_lost
        (tcp_rack_mark_lost
          ({ tp := { rack := { mstamp := 7, advanced := true } } } : Sock)).1 =
      ((tcp_rack_mark_lost
          ({ tp := { rack := { mstamp := 7, advanced := true } } } : Sock)).1,
       none) :=
  ⟨tcp_rack_mark_lost_not_dirty_noop.1 ({} : Sock) (by decide),
   tcp_rack_mark_lost_not_dirty_noop.2.1 ({} : Sock) (by decide),
   tcp_rack_mark_lost_not_dirty_noop.2.2
     ({ tp := { rack := { mstamp := 7, advanced := true } } } : Sock)⟩

/-- **C8 counterexample**: a segment whose elapsed time equals the reorder
window exactly (reference 2000, sent 1000, window 1000) leaves
`detect_loss` returning `Some 0` — but the `u32` out-parameter encodes
that as `0`, so the wrapper's `if (timeout)` sees nothing and arms **no**
timer, refuting "the timer is armed for every Some result of
detect_loss". -/
theorem tcp_rack_mark_lost_some_zero_cex :
    (tcp_rack_detect_loss (rack_cleared
        ({ rack := { mstamp := 2000, advanced := true },
           segs := [{ end_seq := 10, sent_time := 1000 }],
           send_head := 1 } : TcpSock))).2 = some 0
    ∧ (tcp_rack_mark_lost
        ({ tp := { rack := { mstamp := 2000, advanced := true },
                   segs := [{ end_seq := 10, sent_time := 1000 }],
                   send_head := 1 } } : Sock)).2 = none
    ∧ ({ tp := { rack := { mstamp := 2000, advanced := true },
                 segs := [{ end_seq := 10, sent_time := 1000 }],
                 send_head := 1 } } : Sock).tp.rack.advanced = true := by
  refine ⟨by decide, by decide, by decide⟩

/-- **C8 (amended)**: on the on-ack path, whenever the detector returns
`Some t` with `t ≠ 0`, the one-shot re-check timer is armed for
`usecs_to_jiffies (t + TCP_REO_TIMEOUT_MIN)` ticks (tick-rounded timeout
plus the fixed minimum re-check delay); a `Some 0` result is
indistinguishable from `none` in the `u32` out-parameter encoding and
arms nothing. -/
theorem tcp_rack_mark_lost_arms_timer (sk : Sock) (t : Nat)
    (hadv : sk.tp.rack.advanced = true)
    (hdet : (tcp_rack_detect_loss (rack_cleared sk.tp)).2 = some t)
    (ht : t ≠ 0) :
    (tcp_rack_mark_lost sk).2 =
      some (usecs_to_jiffies (t + TCP_REO_TIMEOUT_MIN))
    ∧ (tcp_rack_mark_lost sk).1.icsk_pending = IcskPending.reoTimeout := by
  unfold tcp_rack_mark_lost
  rw [if_neg (by simp [hadv])]
  dsimp only
  rw [hdet]
  simp [ht]

/-- Witness for `tcp_rack_mark_lost_arms_timer`: with remaining window
100 µs the timer is armed for `usecs_to_jiffies (100 + 2000) = 1` tick. -/
theorem tcp_rack_mark_lost_arms_timer_witness :
    (tcp_rack_mark_lost
        ({ tp := { rack := { mstamp := 2000, advanced := true },
                   segs := [{ end_seq := 10, sent_time := 1100 }],
                   send_head := 1 } } : Sock)).2 =
      some (usecs_to_jiffies (100 + TCP_REO_TIMEOUT_MIN)) :=
  (tcp_rack_mark_lost_arms_timer
    ({ tp := { rack := { mstamp := 2000, advanced := true },
               segs := [{ end_seq := 10, sent_time := 1100 }],
               send_head := 1 } } : Sock)
    100 (by decide) (by decide) (by decide)).1

/-- The scan never increases `retrans_out`. -/
lemma tcp_rack_scan_retrans_le (rm w una : Nat) :
    ∀ (segs : List SentSeg) (n : Nat) (acc : ScanAcc),
      (tcp_rack_scan rm w una n segs acc).2.retrans_out ≤ acc.retrans_out := by
  intro segs
  induction segs with
  | nil => intro n acc; cases n <;> simp [tcp_rack_scan]
  | cons s rest ih =>
    intro n acc
    cases n with
    | zero => simp [tcp_rack_scan]
    | succ m =>
      cases hskip : (!after s.end_seq una || s.flags.sacked_acked) with
      | true => simpa [tcp_rack_scan, hskip] using ih m acc
      | false =>
        cases hafter : skb_mstamp_after rm s.sent_time with
        | true =>
          by_cases hle : skb_mstamp_us_delta rm s.sent_time ≤ w
          · simpa [tcp_rack_scan, hskip, hafter, hle] using
              ih m { acc with timeout := minOpt acc.timeout (w - skb_mstamp_us_delta rm s.sent_time) }
          · have step := rack_mark_step_retrans_le acc s
            have tail := ih m (rack_mark_step acc s).1
            simpa [tcp_rack_scan, hskip, hafter, hle] using le_trans tail step
        | false =>
          cases hret : TcpCbFlags.retrans s.flags with
          | false => simp [tcp_rack_scan, hskip, hafter, hret]
          | true => simpa [tcp_rack_scan, hskip, hafter, hret] using ih m acc

/-- The scan never decreases `lost_out`. -/
lemma tcp_rack_scan_lost_ge (rm w una : Nat) :
    ∀ (segs : List SentSeg) (n : Nat) (acc : ScanAcc),
      acc.lost_out ≤ (tcp_rack_scan rm w una n segs acc).2.lost_out := by
  intro segs
  induction segs with
  | nil => intro n acc; cases n <;> simp [tcp_rack_scan]
  | cons s rest ih =>
    intro n acc
    cases n with
    | zero => simp [tcp_rack_scan]
    | succ m =>
      cases hskip : (!after s.end_seq una || s.flags.sacked_acked) with
      | true => simpa [tcp_rack_scan, hskip] using ih m acc
      | false =>
        cases hafter : skb_mstamp_after rm s.sent_time with
        | true =>
          by_cases hle : skb_mstamp_us_delta rm s.sent_time ≤ w
          · simpa [tcp_rack_scan, hskip, hafter, hle] using
              ih m { acc with timeout := minOpt acc.timeout (w - skb_mstamp_us_delta rm s.sent_time) }
          · have step := rack_mark_step_lost_ge acc s
            have tail := ih m (rack_mark_step acc s).1
            simpa [tcp_rack_scan, hskip, hafter, hle] using le_trans step tail
        | false =>
          cases hret : TcpCbFlags.retrans s.flags with
          | false => simp [tcp_rack_scan, hskip, hafter, hret]
          | true => simpa [tcp_rack_scan, hskip, hafter, hret] using ih m acc

/-- The loss detector can only lower the in-flight count (it raises
`lost_out` and lowers `retrans_out`, and touches nothing else the count
reads). -/
lemma tcp_rack_detect_loss_inflight_le (tp : TcpSock) :
    tcp_packets_in_flight (tcp_rack_detect_loss tp).1 ≤
      tcp_packets_in_flight tp := by
  have hr := tcp_rack_scan_retrans_le tp.rack.mstamp (rack_reo_wnd tp)
    tp.snd_una tp.segs tp.send_head (rack_acc0 tp)
  have hl := tcp_rack_scan_lost_ge tp.rack.mstamp (rack_reo_wnd tp)
    tp.snd_una tp.segs tp.send_head (rack_acc0 tp)
  show (rack_apply_scan tp _).packets_out -
      ((rack_apply_scan tp _).sacked_out + (rack_apply_scan tp _).lost_out) +
      (rack_apply_scan tp _).retrans_out ≤ _
  unfold rack_apply_scan tcp_packets_in_flight
  exact Nat.add_le_add
    (Nat.sub_le_sub_left (Nat.add_le_add_left hl _) _) hr

/-- **C9**: on timer expiry, `tcp_rack_reo_timeout` (1) runs the loss
detector on the connection; exactly when the in-flight count decreased
(the source tests `prior_inflight != tcp_packets_in_flight(tp)`, and the
detector can only lower the count): (2) retransmission of the newly lost
segments is requested, (3) recovery entry is requested precisely when the
congestion state was not already `TCP_CA_Recovery`, (4) the one-segment
congestion-window reduction is requested precisely when recovery entry is
requested and the congestion-control ops have no `cong_control` hook; and
(5) the ordinary retransmission timer is re-armed with the standard RTO
precisely when `icsk_pending` is not already the retransmission timer. -/
theorem tcp_rack_reo_timeout_spec (sk : Sock) :
    (tcp_rack_reo_timeout sk).1.tp = (tcp_rack_detect_loss sk.tp).1
    ∧ ((tcp_rack_reo_timeout sk).2.xmit_retransmit = true ↔
        tcp_packets_in_flight (tcp_rack_detect_loss sk.tp).1 <
          tcp_packets_in_flight sk.tp)
    ∧ ((tcp_rack_reo_timeout sk).2.entered_recovery = true ↔
        (tcp_packets_in_flight (tcp_rack_detect_loss sk.tp).1 <
            tcp_packets_in_flight sk.tp
          ∧ sk.ca_state ≠ CaState.recovery))
    ∧ ((tcp_rack_reo_timeout sk).2.cwnd_reduced = true ↔
        ((tcp_rack_reo_timeout sk).2.entered_recovery = true
          ∧ sk.has_cong_control = false))
    ∧ ((tcp_rack_reo_timeout sk).2.rearmed_rto = true ↔
        sk.icsk_pending ≠ IcskPending.retrans) := by
  have hle := tcp_rack_detect_loss_inflight_le sk.tp
  have hiff : (tcp_packets_in_flight sk.tp ≠
        tcp_packets_in_flight (tcp_rack_detect_loss sk.tp).1) ↔
      tcp_packets_in_flight (tcp_rack_detect_loss sk.tp).1 <
        tcp_packets_in_flight sk.tp := by
    constructor
    · intro h
      exact lt_of_le_of_ne hle (fun he => h he.symm)
    · intro h
      exact ne_of_gt h
  by_cases hch : tcp_packets_in_flight sk.tp ≠
      tcp_packets_in_flight (tcp_rack_detect_loss sk.tp).1
  · have hlt := hiff.mp hch
    by_cases hca : sk.ca_state = CaState.recovery <;>
      by_cases hp : sk.icsk_pending = IcskPending.retrans <;>
        simp [tcp_rack_reo_timeout, hch, hca, hp, hlt]
  · have heq : tcp_packets_in_flight sk.tp =
        tcp_packets_in_flight (tcp_rack_detect_loss sk.tp).1 :=
      not_ne_iff.mp hch
    have hnlt : ¬ tcp_packets_in_flight (tcp_rack_detect_loss sk.tp).1 <
        tcp_packets_in_flight sk.tp := by
      rw [heq]
      exact lt_irrefl _
    by_cases hca : sk.ca_state = CaState.recovery <;>
      by_cases hp : sk.icsk_pending = IcskPending.retrans <;>
        simp [tcp_rack_reo_timeout, hch, hca, hp, hnlt]
